import Mathlib

/-!
Verification development for the ThinkTwice repository.

The frontend logic is embedded from `src/frontend/src/App.js`: the
`analyzeText` callback (lines 43-98) together with the monitoring-log
update, the error handler and the request lifecycle managed through
`abortControllerRef`.  The backend handler for `POST /api/analyze-text`
is not part of the sources, so its warning decision is modelled from the
specification.

Numbers carried by requests and responses (scores, thresholds) are
modelled as rationals; the claims under study only ever compare them.
Strings are Lean strings; JavaScript `trim` is embedded with the
ECMAScript whitespace set.
-/

namespace ThinkTwice

/-- ECMAScript whitespace (the set removed by `String.prototype.trim`):
tab, line feed, vertical tab, form feed, carriage return, space,
no-break space, the Unicode space separators, line/paragraph separators
and the byte-order mark. -/
def isJSWhitespace (c : Char) : Bool :=
  c.val == 0x09 || c.val == 0x0A || c.val == 0x0B || c.val == 0x0C ||
  c.val == 0x0D || c.val == 0x20 || c.val == 0xA0 || c.val == 0x1680 ||
  (0x2000 ≤ c.val && c.val ≤ 0x200A) || c.val == 0x2028 || c.val == 0x2029 ||
  c.val == 0x202F || c.val == 0x205F || c.val == 0x3000 || c.val == 0xFEFF

/-- JavaScript `s.trim()`: remove leading and trailing whitespace. -/
def jsTrim (s : String) : String :=
  String.mk (((s.data.dropWhile isJSWhitespace).reverse.dropWhile isJSWhitespace).reverse)

/-- App.js line 79: `textToAnalyze.slice(0, 50) + (textToAnalyze.length > 50 ? '...' : '')`. -/
def truncateLog (t : String) : String :=
  String.mk (t.data.take 50) ++ (if t.length > 50 then "..." else "")

/-- Body of `POST /api/analyze-text` as built at App.js lines 63-66:
exactly the fields `text` and `threshold`. -/
structure AnalyzeRequest where
  text : String
  threshold : ℚ
deriving DecidableEq, Repr

/-- Response of `POST /api/analyze-text` as consumed by the frontend
(App.js lines 71-81): `regret_score`, `should_warn` and the per-category
`analysis` map. -/
structure AnalysisData where
  regret_score : ℚ
  should_warn : Bool
  analysis : List (String × ℚ)
deriving DecidableEq, Repr

/-- A monitoring feed entry (App.js lines 76-82). -/
structure LogEntry where
  timestamp : String
  app : String
  text : String
  regretScore : ℚ
  warned : Bool
deriving DecidableEq, Repr

/-- The React state touched by `analyzeText`: `analysis`, `showWarning`,
`error`, `loading` and `monitoringLogs`. -/
structure UIState where
  analysis : Option AnalysisData
  showWarning : Bool
  error : Option String
  loading : Bool
  monitoringLogs : List LogEntry
deriving DecidableEq, Repr

/-- The error object reaching the `catch` block: JavaScript errors carry
a `name` and a `message`. -/
structure ErrInfo where
  name : String
  message : String
deriving DecidableEq, Repr

/-- App.js line 87 identifies a cancelled request by `error.name === 'AbortError'`. -/
def isCancellation (e : ErrInfo) : Bool :=
  e.name == "AbortError"

/-- Closure context captured by one `analyzeText` call: the request body
plus the `isMonitoring` flag and `selectedApp.name` captured by the
`useCallback` closure (App.js line 99). -/
structure RequestCtx where
  body : AnalyzeRequest
  monitoring : Bool
  app : String
deriving DecidableEq, Repr

/-- App.js lines 76-82: the log entry built after a successful analysis. -/
def mkLogEntry (ts : String) (ctx : RequestCtx) (data : AnalysisData) : LogEntry :=
  { timestamp := ts
    app := ctx.app
    text := truncateLog ctx.body.text
    regretScore := data.regret_score
    warned := data.should_warn }

/-- App.js line 83: `setMonitoringLogs(prev => [logEntry, ...prev.slice(0, 9)])`. -/
def updateLogs (e : LogEntry) (prev : List LogEntry) : List LogEntry :=
  e :: prev.take 9

/-- Success branch of `analyzeText` (App.js lines 71-84 and the
`finally` at line 97): store the response, set the warning flag, append
a monitoring entry when monitoring is on, stop the spinner. -/
def handleSuccess (ctx : RequestCtx) (data : AnalysisData) (ts : String)
    (ui : UIState) : UIState :=
  { ui with
    analysis := some data
    showWarning := data.should_warn
    monitoringLogs :=
      if ctx.monitoring then updateLogs (mkLogEntry ts ctx data) ui.monitoringLogs
      else ui.monitoringLogs
    loading := false }

/-- Catch branch of `analyzeText` (App.js lines 86-98): an `AbortError`
returns early (only the `finally` runs); any other failure records the
error message and clears the displayed analysis and warning. -/
def handleCatch (e : ErrInfo) (ui : UIState) : UIState :=
  if isCancellation e then
    { ui with loading := false }
  else
    { ui with
      error := some ("Analysis failed: " ++ e.message)
      analysis := none
      showWarning := false
      loading := false }

/-- Client state: the UI state plus the request-lifecycle bookkeeping.
`currentCtrl` is `abortControllerRef.current` (the identifier of the
last controller created); `pending` are issued requests whose promise
has not yet settled; `aborted` are requests whose controller was
aborted; `requests` records every issued request with its closure
context. -/
structure ClientState where
  ui : UIState
  currentCtrl : Option Nat
  nextId : Nat
  pending : List Nat
  aborted : List Nat
  requests : List (Nat × RequestCtx)
deriving DecidableEq, Repr

/-- Initial React state (App.js lines 27-40). -/
def initState : ClientState :=
  { ui := { analysis := none, showWarning := false, error := none,
            loading := false, monitoringLogs := [] }
    currentCtrl := none
    nextId := 0
    pending := []
    aborted := []
    requests := [] }

/-- Events driving the client: the debounce timer firing `analyzeText`,
and a pending request settling with a response or an error. -/
inductive Event where
  | invoke (text : String) (threshold : ℚ) (monitoring : Bool) (app : String)
  | succeed (id : Nat) (data : AnalysisData) (ts : String)
  | fail (id : Nat) (e : ErrInfo)
deriving DecidableEq, Repr

/-- Does this event settle request `id`? -/
def Event.completes : Event → Nat → Prop
  | .invoke _ _ _ _, _ => False
  | .succeed i _ _, j => i = j
  | .fail i _, j => i = j

/-- One step of the client.  `invoke` embeds `analyzeText`
(App.js lines 43-69): empty trimmed input clears the analysis, warning
and error state and issues nothing; otherwise the previous controller is
aborted, a fresh controller is installed and a request with body
`{text, threshold}` is issued.  `succeed`/`fail` settle a pending
request; an aborted request can only settle through the cancellation
error, never with a response. -/
def step (ev : Event) (s : ClientState) : Option ClientState :=
  match ev with
  | .invoke t th mon app =>
    if jsTrim t = "" then
      some { s with ui := { s.ui with analysis := none, showWarning := false,
                                       error := none } }
    else
      some { ui := { s.ui with loading := true, error := none }
             currentCtrl := some s.nextId
             nextId := s.nextId + 1
             pending := s.nextId :: s.pending
             aborted := match s.currentCtrl with
               | some cid => cid :: s.aborted
               | none => s.aborted
             requests := (s.nextId, ⟨⟨t, th⟩, mon, app⟩) :: s.requests }
  | .succeed id data ts =>
    if id ∈ s.pending ∧ id ∉ s.aborted then
      match s.requests.lookup id with
      | some ctx =>
        some { s with ui := handleSuccess ctx data ts s.ui,
                      pending := s.pending.erase id }
      | none => none
    else none
  | .fail id e =>
    if id ∈ s.pending ∧ (id ∈ s.aborted → isCancellation e = true) then
      some { s with ui := handleCatch e s.ui,
                    pending := s.pending.erase id }
    else none

/-- States reachable from the initial state. -/
inductive Reachable : ClientState → Prop where
  | init : Reachable initState
  | next : ∀ {s s' : ClientState} {ev : Event},
      Reachable s → step ev s = some s' → Reachable s'

/-- The error banner of the header (App.js lines 217-228). -/
structure ErrorBanner where
  message : String
  hasRetry : Bool
deriving DecidableEq, Repr

/-- App.js lines 217-228: whenever `error` is set, the banner renders the
message together with a Retry button. -/
def renderErrorBanner (ui : UIState) : Option ErrorBanner :=
  ui.error.map (fun m => ⟨m, true⟩)

/-- Number of outstanding requests: issued, not settled, not aborted. -/
def countOutstanding (s : ClientState) : Nat :=
  (s.pending.filter (fun id => decide (id ∉ s.aborted))).length

/-- Concrete run, step 1: `analyzeText "hi"` from the initial state. -/
def exS1 : ClientState :=
  { initState with
    ui := { initState.ui with loading := true }
    currentCtrl := some 0
    nextId := 1
    pending := [0]
    requests := [(0, ⟨⟨"hi", 1⟩, true, "Email"⟩)] }

/-- Concrete run, step 2: `analyzeText "hey"` supersedes request 0. -/
def exS2 : ClientState :=
  { exS1 with
    currentCtrl := some 1
    nextId := 2
    pending := [1, 0]
    aborted := [0]
    requests := (1, ⟨⟨"hey", 1⟩, true, "Email"⟩) :: exS1.requests }

/-- Concrete run, step 3: the aborted request 0 settles with the
cancellation error. -/
def exS3 : ClientState :=
  { exS2 with
    ui := { exS2.ui with loading := false }
    pending := [1] }

/-- Concrete run, alternative step 3: request 1 fails with a timeout. -/
def exS4 : ClientState :=
  { exS2 with
    ui := { exS2.ui with
            error := some "Analysis failed: timeout of 10000ms exceeded"
            loading := false }
    pending := [0] }

/-- A concrete backend response. -/
def exData : AnalysisData :=
  ⟨2, true, [("toxicity", 2)]⟩

/-- Concrete run, alternative step 2: request 0 succeeds from `exS1`. -/
def exS5 : ClientState :=
  { exS1 with
    ui := { exS1.ui with
            analysis := some exData
            showWarning := true
            loading := false
            monitoringLogs := [⟨"10:00:00 AM", "Email", "hi", 2, true⟩] }
    pending := [] }

/-- Modelled from the spec: the backend handler of `POST /api/analyze-text`
(``backend/server.py`` is absent from the sources; only its README is
present).  Per the specification, "score below threshold yields
`should_warn=false`; score at/above threshold yields `should_warn=true`". -/
def backendShouldWarn (score threshold : ℚ) : Bool :=
  decide (threshold ≤ score)

theorem jsTrim_of_all_whitespace (t : String)
    (h : ∀ c ∈ t.data, isJSWhitespace c = true) : jsTrim t = "" := by
  unfold jsTrim
  have h1 : t.data.dropWhile isJSWhitespace = [] :=
    List.dropWhile_eq_nil_iff.mpr h
  rw [h1]
  rfl

theorem updateLogs_length_le (e : LogEntry) (prev : List LogEntry) :
    (updateLogs e prev).length ≤ 10 := by
  have := List.length_take_le 9 prev
  simp only [updateLogs, List.length_cons]
  omega

theorem length_le_one_of_nodup_of_eq {l : List Nat} {c : Nat}
    (hn : l.Nodup) (h : ∀ x ∈ l, x = c) : l.length ≤ 1 := by
  match l with
  | [] => simp
  | [_] => simp
  | a :: b :: t =>
    exfalso
    have ha := h a (by simp)
    have hb := h b (by simp)
    rw [List.nodup_cons] at hn
    exact hn.1 (by simp [ha, hb])

/-- Bookkeeping invariant of the client: pending identifiers are unique
and below `nextId`, every pending, non-aborted request is the one the
current controller governs, and the monitoring feed holds at most 10
entries. -/
structure Inv (s : ClientState) : Prop where
  nodup : s.pending.Nodup
  pendLt : ∀ id ∈ s.pending, id < s.nextId
  abortLt : ∀ id ∈ s.aborted, id < s.nextId
  cur : ∀ id ∈ s.pending, id ∉ s.aborted → s.currentCtrl = some id
  curLt : ∀ id, s.currentCtrl = some id → id < s.nextId
  logsLe : s.ui.monitoringLogs.length ≤ 10

theorem inv_init : Inv initState := by
  refine ⟨?_, ?_, ?_, ?_, ?_, ?_⟩ <;> simp [initState]

theorem inv_step {s s' : ClientState} {ev : Event}
    (hs : Inv s) (h : step ev s = some s') : Inv s' := by
  cases ev with
  | invoke t th mon app =>
    simp only [step] at h
    split at h
    · injection h with h
      subst h
      exact ⟨hs.nodup, hs.pendLt, hs.abortLt, hs.cur, hs.curLt, hs.logsLe⟩
    · cases hc : s.currentCtrl with
      | none =>
        rw [hc] at h
        injection h with h
        subst h
        refine ⟨?_, ?_, ?_, ?_, ?_, hs.logsLe⟩
        · exact List.nodup_cons.mpr
            ⟨fun hm => absurd (hs.pendLt _ hm) (lt_irrefl _), hs.nodup⟩
        · intro id hid
          rcases List.mem_cons.mp hid with rfl | hid
          · exact Nat.lt_succ_self _
          · exact Nat.lt_succ_of_lt (hs.pendLt _ hid)
        · intro id hid
          exact Nat.lt_succ_of_lt (hs.abortLt _ hid)
        · intro id hid hnab
          rcases List.mem_cons.mp hid with rfl | hid
          · rfl
          · have hcu := hs.cur _ hid hnab
            rw [hc] at hcu
            exact Option.noConfusion hcu
        · intro id hid
          injection hid with hid
          subst hid
          exact Nat.lt_succ_self _
      | some cid =>
        rw [hc] at h
        injection h with h
        subst h
        refine ⟨?_, ?_, ?_, ?_, ?_, hs.logsLe⟩
        · exact List.nodup_cons.mpr
            ⟨fun hm => absurd (hs.pendLt _ hm) (lt_irrefl _), hs.nodup⟩
        · intro id hid
          rcases List.mem_cons.mp hid with rfl | hid
          · exact Nat.lt_succ_self _
          · exact Nat.lt_succ_of_lt (hs.pendLt _ hid)
        · intro id hid
          rcases List.mem_cons.mp hid with rfl | hid
          · exact Nat.lt_succ_of_lt (hs.curLt _ hc)
          · exact Nat.lt_succ_of_lt (hs.abortLt _ hid)
        · intro id hid hnab
          rcases List.mem_cons.mp hid with rfl | hid
          · rfl
          · have hcu := hs.cur _ hid (fun hm => hnab (List.mem_cons_of_mem _ hm))
            rw [hc] at hcu
            have hcid : cid = id := Option.some.inj hcu
            exact absurd (List.mem_cons.mpr (Or.inl hcid.symm)) hnab
        · intro id hid
          injection hid with hid
          subst hid
          exact Nat.lt_succ_self _
  | succeed id data ts =>
    simp only [step] at h
    split at h
    · cases hl : s.requests.lookup id with
      | none =>
        rw [hl] at h
        exact Option.noConfusion h
      | some ctx =>
        rw [hl] at h
        injection h with h
        subst h
        refine ⟨hs.nodup.erase _, ?_, hs.abortLt, ?_, hs.curLt, ?_⟩
        · intro i hi
          exact hs.pendLt _ (List.mem_of_mem_erase hi)
        · intro i hi hnab
          exact hs.cur _ (List.mem_of_mem_erase hi) hnab
        · dsimp [handleSuccess]
          split
          · exact updateLogs_length_le _ _
          · exact hs.logsLe
    · exact Option.noConfusion h
  | fail id e =>
    simp only [step] at h
    split at h
    · injection h with h
      subst h
      refine ⟨hs.nodup.erase _, ?_, hs.abortLt, ?_, hs.curLt, ?_⟩
      · intro i hi
        exact hs.pendLt _ (List.mem_of_mem_erase hi)
      · intro i hi hnab
        exact hs.cur _ (List.mem_of_mem_erase hi) hnab
      · dsimp [handleCatch]
        split <;> exact hs.logsLe
    · exact Option.noConfusion h

theorem reachable_inv {s : ClientState} (h : Reachable s) : Inv s := by
  induction h with
  | init => exact inv_init
  | next _ hstep ih => exact inv_step ih hstep

theorem truncateLog_short {t : String} (h : t.length ≤ 50) : truncateLog t = t := by
  unfold truncateLog
  rw [if_neg (by omega), List.take_of_length_le h]
  cases t
  simp

theorem truncateLog_long {t : String} (h : 50 < t.length) :
    truncateLog t = String.mk (t.data.take 50) ++ "..." := by
  unfold truncateLog
  rw [if_pos h]

theorem step_exS1 : step (.invoke "hi" 1 true "Email") initState = some exS1 := by
  decide

theorem step_exS2 : step (.invoke "hey" 1 true "Email") exS1 = some exS2 := by
  decide

theorem step_exS3 :
    step (.fail 0 ⟨"AbortError", "canceled"⟩) exS2 = some exS3 := by
  decide

theorem step_exS4 :
    step (.fail 1 ⟨"AxiosError", "timeout of 10000ms exceeded"⟩) exS2 = some exS4 := by
  decide

theorem step_exS5 : step (.succeed 0 exData "10:00:00 AM") exS1 = some exS5 := by
  decide

theorem exS1_reachable : Reachable exS1 :=
  Reachable.next Reachable.init step_exS1

theorem exS2_reachable : Reachable exS2 :=
  Reachable.next exS1_reachable step_exS2

theorem exS5_reachable : Reachable exS5 :=
  Reachable.next exS1_reachable step_exS5

theorem countOutstanding_le_one {s : ClientState} (hinv : Inv s) :
    countOutstanding s ≤ 1 := by
  unfold countOutstanding
  have hnd : (s.pending.filter (fun id => decide (id ∉ s.aborted))).Nodup :=
    hinv.nodup.filter _
  have hcur : ∀ x ∈ s.pending.filter (fun id => decide (id ∉ s.aborted)),
      s.currentCtrl = some x := by
    intro x hx
    have hx' := List.mem_filter.mp hx
    exact hinv.cur x hx'.1 (of_decide_eq_true hx'.2)
  cases hl : s.pending.filter (fun id => decide (id ∉ s.aborted)) with
  | nil => simp
  | cons a t =>
    rw [hl] at hnd hcur
    refine length_le_one_of_nodup_of_eq (c := a) hnd (fun x hx => ?_)
    have h1 := hcur x hx
    have h2 := hcur a (List.mem_cons_self a t)
    exact (Option.some.inj (h2.symm.trans h1)).symm

/-- C1: for every analyze-text request, the response's `should_warn` is
`false` whenever the regret score is strictly below the request
threshold, and `true` whenever the score is at or above it. -/
theorem backend_should_warn_iff_threshold (score threshold : ℚ) :
    (score < threshold → backendShouldWarn score threshold = false) ∧
    (threshold ≤ score → backendShouldWarn score threshold = true) := by
  constructor
  · intro h
    simpa [backendShouldWarn] using not_le.mpr h
  · intro h
    simp [backendShouldWarn, h]

theorem backend_should_warn_iff_threshold_witness :
    backendShouldWarn 0 1 = false ∧ backendShouldWarn 2 1 = true :=
  ⟨(backend_should_warn_iff_threshold 0 1).1 (by decide),
   (backend_should_warn_iff_threshold 2 1).2 (by decide)⟩

/-- C2: when the trimmed input is empty, `analyzeText` issues no HTTP
request (no client bookkeeping changes, no request is recorded) and sets
the analysis state to null, the warning flag to false and the error
state to null. -/
theorem empty_input_clears_state (s : ClientState) (t : String) (th : ℚ)
    (mon : Bool) (app : String) (h : jsTrim t = "") :
    step (.invoke t th mon app) s =
      some { s with ui := { s.ui with analysis := none, showWarning := false,
                                      error := none } } := by
  simp [step, h]

theorem empty_input_clears_state_witness :
    jsTrim "" = "" ∧
    step (.invoke "" 1 true "Email") initState =
      some { initState with
             ui := { initState.ui with analysis := none,
                                       showWarning := false,
                                       error := none } } :=
  ⟨by decide, empty_input_clears_state initState "" 1 true "Email" (by decide)⟩

/-- C3: every reachable client state has at most one outstanding
analysis request, and an `analyzeText` call on non-empty input aborts
every previously issued request that is still in flight. -/
theorem single_inflight_request :
    (∀ s : ClientState, Reachable s → countOutstanding s ≤ 1) ∧
    (∀ (s s' : ClientState) (t : String) (th : ℚ) (mon : Bool) (app : String),
      Reachable s → jsTrim t ≠ "" →
      step (.invoke t th mon app) s = some s' →
      ∀ id ∈ s.pending, id ∉ s.aborted → id ∈ s'.aborted) := by
  constructor
  · intro s hr
    exact countOutstanding_le_one (reachable_inv hr)
  · intro s s' t th mon app hr hne hstep id hid hnab
    have hcur := (reachable_inv hr).cur id hid hnab
    simp only [step] at hstep
    rw [if_neg hne, hcur] at hstep
    injection hstep with h
    subst h
    exact List.mem_cons_self id s.aborted

theorem single_inflight_request_witness :
    countOutstanding exS2 ≤ 1 :=
  single_inflight_request.1 exS2 exS2_reachable

/-- C4: when a cancelled (aborted) request settles, the frontend is
silent: the analysis, warning flag, error state and monitoring feed are
left exactly as they were; only the loading spinner stops. -/
theorem cancelled_request_silent (s s' : ClientState) (id : Nat) (e : ErrInfo)
    (hab : id ∈ s.aborted) (hstep : step (.fail id e) s = some s') :
    s'.ui = { s.ui with loading := false } := by
  simp only [step] at hstep
  split at hstep
  · rename_i hcond
    injection hstep with h
    subst h
    have hc : isCancellation e = true := hcond.2 hab
    simp [handleCatch, hc]
  · exact Option.noConfusion hstep

theorem cancelled_request_silent_witness :
    (0 ∈ exS2.aborted) ∧ exS3.ui = { exS2.ui with loading := false } :=
  ⟨by decide,
   cancelled_request_silent exS2 exS3 0 ⟨"AbortError", "canceled"⟩
     (by decide) step_exS3⟩

/-- C5: once a request is superseded and aborted it stays aborted, and
no later settlement of that request ever updates the analysis, warning
or error state. -/
theorem no_stale_update_for_superseded :
    (∀ (s s' : ClientState) (ev : Event), step ev s = some s' →
      ∀ id ∈ s.aborted, id ∈ s'.aborted) ∧
    (∀ (s s' : ClientState) (ev : Event) (id : Nat),
      id ∈ s.aborted → ev.completes id → step ev s = some s' →
      s'.ui.analysis = s.ui.analysis ∧ s'.ui.showWarning = s.ui.showWarning ∧
      s'.ui.error = s.ui.error) := by
  constructor
  · intro s s' ev hstep id hid
    cases ev with
    | invoke t th mon app =>
      simp only [step] at hstep
      split at hstep
      · injection hstep with h
        subst h
        exact hid
      · cases hc : s.currentCtrl with
        | none =>
          rw [hc] at hstep
          injection hstep with h
          subst h
          exact hid
        | some cid =>
          rw [hc] at hstep
          injection hstep with h
          subst h
          exact List.mem_cons_of_mem _ hid
    | succeed i data ts =>
      simp only [step] at hstep
      split at hstep
      · cases hl : s.requests.lookup i with
        | none =>
          rw [hl] at hstep
          exact Option.noConfusion hstep
        | some ctx =>
          rw [hl] at hstep
          injection hstep with h
          subst h
          exact hid
      · exact Option.noConfusion hstep
    | fail i e =>
      simp only [step] at hstep
      split at hstep
      · injection hstep with h
        subst h
        exact hid
      · exact Option.noConfusion hstep
  · intro s s' ev id hab hcomp hstep
    cases ev with
    | invoke t th mon app => exact False.elim hcomp
    | succeed i data ts =>
      have hi : i = id := hcomp
      subst hi
      simp only [step] at hstep
      split at hstep
      · rename_i hcond
        exact absurd hab hcond.2
      · exact Option.noConfusion hstep
    | fail i e =>
      have hi : i = id := hcomp
      subst hi
      simp only [step] at hstep
      split at hstep
      · rename_i hcond
        injection hstep with h
        subst h
        have hc : isCancellation e = true := hcond.2 hab
        simp [handleCatch, hc]
      · exact Option.noConfusion hstep

theorem no_stale_update_for_superseded_witness :
    exS3.ui.analysis = exS2.ui.analysis ∧
    exS3.ui.showWarning = exS2.ui.showWarning ∧
    exS3.ui.error = exS2.ui.error :=
  no_stale_update_for_superseded.2 exS2 exS3 (.fail 0 ⟨"AbortError", "canceled"⟩)
    0 (by decide) rfl step_exS3

/-- C6: a non-cancelled failure (network error or timeout) records an
error message that contains the failure reason, the banner rendered from
it offers a Retry action, and the analysis state and warning flag are
cleared. -/
theorem failure_sets_retryable_error (s s' : ClientState) (id : Nat) (e : ErrInfo)
    (hnc : isCancellation e = false) (hstep : step (.fail id e) s = some s') :
    s'.ui.error = some ("Analysis failed: " ++ e.message) ∧
    (∃ p, "Analysis failed: " ++ e.message = p ++ e.message) ∧
    s'.ui.analysis = none ∧
    s'.ui.showWarning = false ∧
    renderErrorBanner s'.ui = some ⟨"Analysis failed: " ++ e.message, true⟩ := by
  simp only [step] at hstep
  split at hstep
  · injection hstep with h
    subst h
    refine ⟨?_, ⟨"Analysis failed: ", rfl⟩, ?_, ?_, ?_⟩ <;>
      simp [handleCatch, hnc, renderErrorBanner]
  · exact Option.noConfusion hstep

theorem failure_sets_retryable_error_witness :
    isCancellation ⟨"AxiosError", "timeout of 10000ms exceeded"⟩ = false ∧
    exS4.ui.error =
      some ("Analysis failed: " ++ "timeout of 10000ms exceeded") :=
  ⟨by decide,
   (failure_sets_retryable_error exS2 exS4 1
     ⟨"AxiosError", "timeout of 10000ms exceeded"⟩ (by decide) step_exS4).1⟩

/-- C7: a non-empty `analyzeText` call records a request whose body is
exactly `{text, threshold}`, and a successful settlement stores the
response (its `regret_score`, `should_warn` and per-category `analysis`
fields) and raises the warning flag exactly when `should_warn` says so. -/
theorem analyze_contract :
    (∀ (s s' : ClientState) (t : String) (th : ℚ) (mon : Bool) (app : String),
      jsTrim t ≠ "" → step (.invoke t th mon app) s = some s' →
      s'.requests = (s.nextId, ⟨⟨t, th⟩, mon, app⟩) :: s.requests) ∧
    (∀ (s s' : ClientState) (id : Nat) (data : AnalysisData) (ts : String)
        (ctx : RequestCtx),
      s.requests.lookup id = some ctx →
      step (.succeed id data ts) s = some s' →
      s'.ui.analysis = some data ∧ s'.ui.showWarning = data.should_warn) := by
  constructor
  · intro s s' t th mon app hne hstep
    simp only [step] at hstep
    rw [if_neg hne] at hstep
    injection hstep with h
    subst h
    rfl
  · intro s s' id data ts ctx hctx hstep
    simp only [step] at hstep
    split at hstep
    · rw [hctx] at hstep
      injection hstep with h
      subst h
      exact ⟨rfl, rfl⟩
    · exact Option.noConfusion hstep

theorem analyze_contract_witness :
    jsTrim "hi" ≠ "" ∧
    exS1.requests = (initState.nextId, ⟨⟨"hi", 1⟩, true, "Email"⟩) :: initState.requests :=
  ⟨by decide, analyze_contract.1 initState exS1 "hi" 1 true "Email" (by decide) step_exS1⟩

/-- C8: while monitoring is on, a successful analysis prepends a log
entry whose text is the first 50 characters of the analyzed text with
`...` appended exactly when the text is longer than 50 characters (the
full text otherwise), together with the timestamp, app name, score and
warned flag. -/
theorem monitoring_log_truncation (s s' : ClientState) (id : Nat)
    (data : AnalysisData) (ts : String) (ctx : RequestCtx)
    (hctx : s.requests.lookup id = some ctx) (hmon : ctx.monitoring = true)
    (hstep : step (.succeed id data ts) s = some s') :
    s'.ui.monitoringLogs = mkLogEntry ts ctx data :: s.ui.monitoringLogs.take 9 ∧
    (mkLogEntry ts ctx data).text = truncateLog ctx.body.text ∧
    (ctx.body.text.length ≤ 50 → truncateLog ctx.body.text = ctx.body.text) ∧
    (50 < ctx.body.text.length →
      truncateLog ctx.body.text = String.mk (ctx.body.text.data.take 50) ++ "...") ∧
    (mkLogEntry ts ctx data).timestamp = ts ∧
    (mkLogEntry ts ctx data).app = ctx.app ∧
    (mkLogEntry ts ctx data).regretScore = data.regret_score ∧
    (mkLogEntry ts ctx data).warned = data.should_warn := by
  simp only [step] at hstep
  split at hstep
  · rw [hctx] at hstep
    injection hstep with h
    subst h
    refine ⟨?_, rfl, fun h50 => truncateLog_short h50,
            fun h50 => truncateLog_long h50, rfl, rfl, rfl, rfl⟩
    simp [handleSuccess, hmon, updateLogs]
  · exact Option.noConfusion hstep

theorem monitoring_log_truncation_witness :
    exS1.requests.lookup 0 = some ⟨⟨"hi", 1⟩, true, "Email"⟩ ∧
    exS5.ui.monitoringLogs =
      mkLogEntry "10:00:00 AM" ⟨⟨"hi", 1⟩, true, "Email"⟩ exData ::
        exS1.ui.monitoringLogs.take 9 :=
  ⟨by decide,
   (monitoring_log_truncation exS1 exS5 0 exData "10:00:00 AM"
     ⟨⟨"hi", 1⟩, true, "Email"⟩ (by decide) rfl step_exS5).1⟩

/-- C9: input consisting only of whitespace characters is treated like
empty input: no request is issued and the analysis, warning and error
states are cleared. -/
theorem whitespace_input_clears_state (s : ClientState) (t : String) (th : ℚ)
    (mon : Bool) (app : String) (h : ∀ c ∈ t.data, isJSWhitespace c = true) :
    step (.invoke t th mon app) s =
      some { s with ui := { s.ui with analysis := none, showWarning := false,
                                      error := none } } := by
  have h1 := jsTrim_of_all_whitespace t h
  simp [step, h1]

theorem whitespace_input_clears_state_witness :
    (∀ c ∈ ("  " : String).data, isJSWhitespace c = true) ∧
    step (.invoke "  " 1 true "Email") initState =
      some { initState with
             ui := { initState.ui with analysis := none,
                                       showWarning := false,
                                       error := none } } :=
  ⟨by decide,
   whitespace_input_clears_state initState "  " 1 true "Email" (by decide)⟩

/-- C10: every reachable monitoring feed holds at most 10 entries, and
an update prepends the new entry while keeping at most the 9 most recent
previous entries (a prefix of the previous list). -/
theorem monitoring_logs_bounded :
    (∀ s : ClientState, Reachable s → s.ui.monitoringLogs.length ≤ 10) ∧
    (∀ (e : LogEntry) (prev : List LogEntry),
      updateLogs e prev = e :: prev.take 9 ∧
      prev.take 9 <+: prev ∧
      (updateLogs e prev).length ≤ 10) :=
  ⟨fun _ hr => (reachable_inv hr).logsLe,
   fun e prev => ⟨rfl, ⟨prev.drop 9, List.take_append_drop 9 prev⟩,
                  updateLogs_length_le e prev⟩⟩

theorem monitoring_logs_bounded_witness :
    exS5.ui.monitoringLogs.length ≤ 10 :=
  monitoring_logs_bounded.1 exS5 exS5_reachable

end ThinkTwice
